import Mathlib

/-!
Shallow embedding of `src/lzhaiofetcher/fetcher.py` (class `AioFetcher`).

Modelling conventions:
- Durations are exact naturals in milliseconds (the source uses seconds as
  floats: timeout 30 s, min_delay 0.5 s, max_delay 1.5 s, retry pause 1 s,
  which are 30000, 500, 1500 and 1000 ms).
- The network is an oracle: for a given URL-fetch, `net attempt` is
  `some body` when the GET of attempt number `attempt` succeeds and the body
  decodes as UTF-8 to `body`, and `none` when the attempt raises any
  exception (connection error, timeout, non-UTF-8 body, ...), exactly the
  cases caught by the `except Exception` clause at fetcher.py:101.
- The observable effects of `fetch` (requests issued, sleeps performed) are
  collected in a trace of events.
- `random.choice` over the User-Agent pool is an oracle parameter `ua`;
  `random.uniform(min_delay, max_delay)` draws are irrelevant to the claims
  settled here except through their position in the control flow, which the
  step relation below records.
-/

namespace AioFetcher

/-- Constructor configuration of `AioFetcher.__init__` (fetcher.py:50-69).
Defaults follow the source: `timeout=30`, `max_connections=100`,
`max_retries=2`, `min_delay=0.5`, `max_delay=1.5`, `concurrent_tasks=3`
(durations in milliseconds here). -/
structure Config where
  timeout : Nat := 30000
  maxConnections : Nat := 100
  maxRetries : Nat := 2
  minDelay : Nat := 500
  maxDelay : Nat := 1500
  concurrentTasks : Nat := 3
deriving DecidableEq

/-- The `aiohttp.TCPConnector(limit=max_connections, ssl=True)` object built
once in `__init__` (fetcher.py:64). `cid` is the identity of the allocated
object, `limit` its `max_connections` cap. -/
structure Connector where
  cid : Nat
  limit : Nat
deriving DecidableEq

/-- An `aiohttp.ClientSession` as built by `_ensure_session`
(fetcher.py:71-79): it captures the timeout, the fetcher connector object
and one randomly chosen User-Agent header, and it has a closed flag. -/
structure Session where
  connector : Connector
  timeout : Nat
  userAgent : String
  closed : Bool
deriving DecidableEq

/-- The mutable attributes of an `AioFetcher` instance set in `__init__`
(fetcher.py:63-69), in source order: `_timeout`, `_connector`, `_session`,
`_max_retries`, `_min_delay`, `_max_delay`, `_concurrent_tasks`. -/
structure FetcherState where
  timeout : Nat
  connector : Connector
  session : Option Session
  maxRetries : Nat
  minDelay : Nat
  maxDelay : Nat
  concurrentTasks : Nat
deriving DecidableEq

/-- `AioFetcher.__init__` (fetcher.py:50-69): stores the timeout, allocates
the connector (identity `cid`, fresh at construction), leaves the session
unset (`self._session = None`) and copies the remaining configuration. -/
def initState (cfg : Config) (cid : Nat) : FetcherState :=
  { timeout := cfg.timeout
    connector := { cid := cid, limit := cfg.maxConnections }
    session := none
    maxRetries := cfg.maxRetries
    minDelay := cfg.minDelay
    maxDelay := cfg.maxDelay
    concurrentTasks := cfg.concurrentTasks }

/-- The `aiohttp.ClientSession(...)` constructor call of fetcher.py:73-79: a
fresh open session holding the stored timeout, the connector allocated at
construction and the randomly chosen User-Agent `ua`. -/
def newSession (ua : String) (s : FetcherState) : Session :=
  { connector := s.connector, timeout := s.timeout, userAgent := ua, closed := false }

/-- `AioFetcher._ensure_session` (fetcher.py:71-79): if `self._session is
None or self._session.closed`, build a new `ClientSession` with the stored
timeout, the connector allocated at construction and a randomly chosen
User-Agent (the draw is the oracle parameter `ua`); otherwise do nothing. -/
def ensure_session (ua : String) (s : FetcherState) : FetcherState :=
  match s.session with
  | none => { s with session := some (newSession ua s) }
  | some sess =>
    match sess.closed with
    | true => { s with session := some (newSession ua s) }
    | false => s

/-- `AioFetcher.close` (fetcher.py:145-147): `if self._session and not
self._session.closed: await self._session.close()`. Closing a session only
flips its closed flag; nothing else of the fetcher changes. -/
def close (s : FetcherState) : FetcherState :=
  match s.session with
  | none => s
  | some sess =>
    match sess.closed with
    | true => s
    | false => { s with session := some ({ sess with closed := true }) }

/-- Observable events of a fetch: an HTTP GET of a URL, or a sleep of a
duration in milliseconds. -/
inductive Ev
  | request (url : String)
  | sleep (ms : Nat)
deriving DecidableEq

/-- Retry loop of `AioFetcher.fetch` (fetcher.py:92-107): `while attempt <
self._max_retries`, issue the GET of attempt number `attempt`; on success
return the decoded body, on any exception increment `attempt`, sleep a fixed
1 second (1000 ms) and loop. When the guard fails, return `None`. Here
`fuel = maxRetries - attempt`, so the guard `attempt < maxRetries` is
exactly `fuel > 0`. -/
def fetchLoop (net : Nat → Option String) (url : String) :
    Nat → Nat → List Ev × Option String
  | _, 0 => ([], none)
  | attempt, fuel+1 =>
    match net attempt with
    | some body => ([Ev.request url], some body)
    | none =>
      let rest := fetchLoop net url (attempt+1) fuel
      (Ev.request url :: Ev.sleep 1000 :: rest.1, rest.2)

/-- `AioFetcher.fetch` (fetcher.py:89-107): ensure a session, then run the
retry loop with `attempt = 0`. Returns the fetcher state after
`_ensure_session`, the event trace, and the result (`some body` or `none`). -/
def fetch (net : Nat → Option String) (ua : String) (s : FetcherState) (url : String) :
    FetcherState × List Ev × Option String :=
  let s1 := ensure_session ua s
  let r := fetchLoop net url 0 s1.maxRetries
  (s1, r.1, r.2)

/-- Tests whether an event is an HTTP request. -/
def isReq : Ev → Bool
  | Ev.request _ => true
  | Ev.sleep _ => false

/-- Tests whether an event is the fixed 1-second retry pause of
fetcher.py:104. -/
def isPause : Ev → Bool
  | Ev.sleep ms => decide (ms = 1000)
  | Ev.request _ => false

/-- Number of HTTP requests in a trace. -/
def countRequests (tr : List Ev) : Nat := tr.countP isReq

/-- Number of fixed 1-second retry pauses in a trace. -/
def countPauses (tr : List Ev) : Nat := tr.countP isPause

/-- A Python runtime error escaping a function. -/
inductive PyErr
  | unboundLocal (name : String)
deriving DecidableEq

/-- `AioFetcher.fetch_all` (fetcher.py:109-124), faithful to the source.
After `await self._ensure_session()` (line 114) and `results = []`
(line 116), line 117 executes `result = await self.fetch(url)`. The name
`url` is a local variable of `fetch_all` — it is assigned only by the
statement `for url in urls[1:]` at line 119, and an assignment anywhere in a
Python function body makes the name local to the whole body — so at line 117
it is referenced before any assignment and the call raises
`UnboundLocalError` at once, on every input list, before any request or
sleep is performed. The loop at lines 119-123 is dead code. -/
def fetch_all (net : Nat → Nat → Option String) (ua : String) (s : FetcherState)
    (urls : List String) : FetcherState × List Ev × Except PyErr (List (Option String)) :=
  let s1 := ensure_session ua s
  (s1, [], Except.error (PyErr.unboundLocal "url"))

/-- Phase of one `sem_fetch(url)` task spawned by `fetch_all_concurrent`
(fetcher.py:135-141):
- `waitSem`: blocked at `async with semaphore` (line 136);
- `sleeping`: permit held, sleeping the random delay (lines 137-138);
- `check attempt`: permit held, at the guard `attempt < maxRetries` of the
  retry loop of `fetch` (line 93);
- `request attempt`: permit held, GET of attempt number `attempt` in flight
  (lines 95-96);
- `pause attempt`: permit held, in the fixed 1-second retry pause after a
  failed attempt, with the counter already incremented (lines 103-104);
- `done res`: permit released (exit of the `async with` block), task result
  `res`. -/
inductive TPhase
  | waitSem
  | sleeping
  | check (attempt : Nat)
  | request (attempt : Nat)
  | pause (attempt : Nat)
  | done (res : Option String)
deriving DecidableEq

/-- Global state of one `fetch_all_concurrent` call: free permits of
`asyncio.Semaphore(self._concurrent_tasks)` (fetcher.py:133) and the phase
of each spawned task, listed in input-URL order (the tasks are created by
the comprehension at line 141, one per URL, in order). -/
structure CState where
  sem : Nat
  tasks : List TPhase
deriving DecidableEq

/-- Initial state of `fetch_all_concurrent` on `n` URLs with gate size `N`:
all permits free, every task launched and blocked at the semaphore. -/
def cinit (N n : Nat) : CState :=
  { sem := N, tasks := List.replicate n TPhase.waitSem }

/-- One scheduling step of the cooperative event loop running the tasks of
`fetch_all_concurrent`. `maxR` is `self._max_retries`; `net i a` is the
outcome of attempt number `a` of the GET of the `i`-th input URL. Any
runnable task may step: the scheduler (completion order) is fully
nondeterministic. A permit is taken by `acquire` and given back exactly when
a task reaches `done` (exit of the `async with semaphore` block), whether
the result is a body or `none`. -/
inductive CStep (maxR : Nat) (net : Nat → Nat → Option String) : CState → CState → Prop
  | acquire (i k : Nat) (ts : List TPhase) :
      ts.get? i = some TPhase.waitSem →
      CStep maxR net ⟨k+1, ts⟩ ⟨k, ts.set i TPhase.sleeping⟩
  | wake (i k : Nat) (ts : List TPhase) :
      ts.get? i = some TPhase.sleeping →
      CStep maxR net ⟨k, ts⟩ ⟨k, ts.set i (TPhase.check 0)⟩
  | checkT (i k : Nat) (ts : List TPhase) (a : Nat) :
      ts.get? i = some (TPhase.check a) → a < maxR →
      CStep maxR net ⟨k, ts⟩ ⟨k, ts.set i (TPhase.request a)⟩
  | checkF (i k : Nat) (ts : List TPhase) (a : Nat) :
      ts.get? i = some (TPhase.check a) → ¬ a < maxR →
      CStep maxR net ⟨k, ts⟩ ⟨k+1, ts.set i (TPhase.done none)⟩
  | reqOk (i k : Nat) (ts : List TPhase) (a : Nat) (b : String) :
      ts.get? i = some (TPhase.request a) → net i a = some b →
      CStep maxR net ⟨k, ts⟩ ⟨k+1, ts.set i (TPhase.done (some b))⟩
  | reqErr (i k : Nat) (ts : List TPhase) (a : Nat) :
      ts.get? i = some (TPhase.request a) → net i a = none →
      CStep maxR net ⟨k, ts⟩ ⟨k, ts.set i (TPhase.pause (a+1))⟩
  | endPause (i k : Nat) (ts : List TPhase) (a : Nat) :
      ts.get? i = some (TPhase.pause a) →
      CStep maxR net ⟨k, ts⟩ ⟨k, ts.set i (TPhase.check a)⟩

/-- Reachability under the scheduler: any finite interleaving of task
steps. -/
def CReach (maxR : Nat) (net : Nat → Nat → Option String) : CState → CState → Prop :=
  Relation.ReflTransGen (CStep maxR net)

/-- A task in this phase holds a semaphore permit (it is delaying or
fetching): every phase strictly between `acquire` and `done`. -/
def holds : TPhase → Bool
  | TPhase.waitSem => false
  | TPhase.done _ => false
  | _ => true

/-- Number of tasks currently holding a permit. -/
def holdersCount (ts : List TPhase) : Nat := ts.countP holds

/-- `asyncio.gather(*tasks)` (fetcher.py:142): once every task is done,
collect the task results in task order (= input URL order); `none` while
some task is unfinished. -/
def gatherResults : List TPhase → Option (List (Option String))
  | [] => some []
  | TPhase.done r :: ts => (gatherResults ts).map (fun rs => r :: rs)
  | _ :: _ => none

/-- Pure value of the retry loop of `fetch` started at attempt number `a`
with `fuel` remaining attempts: the result the loop returns, ignoring
effects. -/
def loopFuel (net1 : Nat → Option String) (a : Nat) : Nat → Option String
  | 0 => none
  | fuel+1 =>
    match net1 a with
    | some b => some b
    | none => loopFuel net1 (a+1) fuel

/-- Pure fetch result of one URL under per-attempt oracle `net1` and retry
bound `maxR`: what `fetch` returns for that URL. -/
def fetchOutcome (net1 : Nat → Option String) (maxR : Nat) : Option String :=
  loopFuel net1 0 maxR

/-- Consistency of a task phase with the pure fetch outcome of its URL: the
value the task will eventually produce is `fetchOutcome`. -/
def taskOK (net1 : Nat → Option String) (maxR : Nat) : TPhase → Prop
  | TPhase.waitSem => True
  | TPhase.sleeping => True
  | TPhase.check a => loopFuel net1 a (maxR - a) = fetchOutcome net1 maxR
  | TPhase.request a => a < maxR ∧ loopFuel net1 a (maxR - a) = fetchOutcome net1 maxR
  | TPhase.pause a => loopFuel net1 a (maxR - a) = fetchOutcome net1 maxR
  | TPhase.done res => res = fetchOutcome net1 maxR

/-- Event trace of a fully failing retry loop with `fuel` remaining
attempts: a request then the fixed 1-second pause, `fuel` times. -/
def failTrace (url : String) : Nat → List Ev
  | 0 => []
  | fuel+1 => Ev.request url :: Ev.sleep 1000 :: failTrace url fuel

/-- The connector stored in the session (if any) is the connector object of
the fetcher itself — the binding `_ensure_session` always establishes. -/
def connectorBound (s : FetcherState) : Prop :=
  s.session.all (fun sess => decide (sess.connector = s.connector)) = true

/-- Concrete network oracle: the GET of URL number 0 succeeds with body
`"A"`, every other GET fails on every attempt. -/
def netA : Nat → Nat → Option String :=
  fun i _ => if i = 0 then some "A" else none

/-- Concrete network oracle: like `netA`, except the GET of URL number 1
succeeds with body `"B"`. Agrees with `netA` on every URL other than 1. -/
def netA1 : Nat → Nat → Option String :=
  fun i a => if i = 1 then some "B" else netA i a

/-- Concrete network oracle: URL number 0 yields body `"A"`, every other
URL yields body `"B"`, always on the first attempt. -/
def netAB : Nat → Nat → Option String :=
  fun i _ => if i = 0 then some "A" else some "B"

/-! General list facts used by the invariant proofs. -/

theorem lt_length_of_get? {α : Type} {l : List α} {i : Nat} {y : α}
    (h : l.get? i = some y) : i < l.length :=
  (List.get?_eq_some.mp h).1

theorem eq_of_get?_replicate {α : Type} (x : α) :
    ∀ (n i : Nat) (y : α), (List.replicate n x).get? i = some y → y = x := by
  intro n
  induction n with
  | zero => intro i y h; simp [List.replicate] at h
  | succ n ih =>
    intro i y h
    cases i with
    | zero =>
      simp [List.replicate] at h
      exact h.symm
    | succ i => exact ih i y h

theorem countP_replicate_zero {α : Type} (p : α → Bool) (x : α) (hx : p x = false) :
    ∀ n : Nat, (List.replicate n x).countP p = 0 := by
  intro n
  induction n with
  | zero => rfl
  | succ n ih => simp [List.replicate, List.countP_cons, hx, ih]

theorem countP_set_add {α : Type} (p : α → Bool) :
    ∀ (l : List α) (i : Nat) (x y : α), l.get? i = some y →
      (l.set i x).countP p + (if p y then 1 else 0)
        = l.countP p + (if p x then 1 else 0) := by
  intro l
  induction l with
  | nil => intro i x y h; simp at h
  | cons hd tl ih =>
    intro i x y h
    cases i with
    | zero =>
      have hy : hd = y := by simpa using h
      subst hy
      simp only [List.set]
      cases hx : p x <;> cases hh : p hd <;>
        simp [List.countP_cons, hx, hh] <;> omega
    | succ i =>
      have h2 := ih i x y (by simpa using h)
      simp only [List.set]
      cases hx : p x <;> cases hy : p y <;> cases hh : p hd <;>
        simp [List.countP_cons, hx, hy, hh] at h2 ⊢ <;> omega

/-! Frame facts about the session manager. -/

theorem ensure_session_frame (ua : String) (s : FetcherState) :
    (ensure_session ua s).timeout = s.timeout
    ∧ (ensure_session ua s).connector = s.connector
    ∧ (ensure_session ua s).maxRetries = s.maxRetries := by
  rcases s with ⟨t, c, se, mr, mi, ma, ct⟩
  rcases se with _ | sess
  · exact ⟨rfl, rfl, rfl⟩
  · rcases sess with ⟨sc, st, su, scl⟩
    cases scl
    · exact ⟨rfl, rfl, rfl⟩
    · exact ⟨rfl, rfl, rfl⟩

/-! The fully failing retry loop. -/

theorem fetchLoop_allfail (net1 : Nat → Option String) (url : String)
    (hf : ∀ a, net1 a = none) :
    ∀ (fuel a : Nat), fetchLoop net1 url a fuel = (failTrace url fuel, none) := by
  intro fuel
  induction fuel with
  | zero => intro a; rfl
  | succ fuel ih =>
    intro a
    simp [fetchLoop, hf a, failTrace, ih (a+1)]

theorem countRequests_failTrace (url : String) :
    ∀ fuel : Nat, countRequests (failTrace url fuel) = fuel := by
  intro fuel
  induction fuel with
  | zero => rfl
  | succ fuel ih =>
    simp [failTrace, countRequests, List.countP_cons, isReq] at ih ⊢
    omega

theorem countPauses_failTrace (url : String) :
    ∀ fuel : Nat, countPauses (failTrace url fuel) = fuel := by
  intro fuel
  induction fuel with
  | zero => rfl
  | succ fuel ih =>
    simp [failTrace, countPauses, List.countP_cons, isPause] at ih ⊢
    omega

theorem loopFuel_allfail (net1 : Nat → Option String) (hf : ∀ a, net1 a = none) :
    ∀ (fuel a : Nat), loopFuel net1 a fuel = none := by
  intro fuel
  induction fuel with
  | zero => intro a; rfl
  | succ fuel ih => intro a; simp [loopFuel, hf a, ih (a+1)]

/-- Claim C1: the spec says `fetch_all` on a non-empty URL list returns a
same-length, same-order result sequence, fetching the first URL first. The
code cannot: at fetcher.py:117 `result = await self.fetch(url)` reads the
local variable `url` before its first assignment (it is only assigned by the
loop at line 119), so every call raises `UnboundLocalError` before issuing
any request. Evaluated here on the concrete two-URL input `["a", "b"]`: the
call ends in the error, with an empty event trace. -/
theorem C1_fetch_all_crashes_on_nonempty :
    (fetch_all (fun _ _ => some "body") "ua" (initState {} 0) ["a", "b"]).2.2
      = Except.error (PyErr.unboundLocal "url")
    ∧ (fetch_all (fun _ _ => some "body") "ua" (initState {} 0) ["a", "b"]).2.1 = [] :=
  ⟨rfl, rfl⟩

/-- Claim C2, counterexample: with `maxRetries = 3` (the concrete scenario of
the spec) and a URL failing every attempt, the code performs 3 requests but
pauses 1 second after EVERY failed attempt — `asyncio.sleep(1)` at
fetcher.py:104 is inside the `except` block, so it also runs after the last
failure — giving 3 pauses, not the claimed `maxRetries - 1 = 2`. -/
theorem C2_counterexample_pause_after_last_failure :
    countRequests (fetch (fun _ => none) "ua" (initState ({ maxRetries := 3 }) 0) "u").2.1 = 3
    ∧ countPauses (fetch (fun _ => none) "ua" (initState ({ maxRetries := 3 }) 0) "u").2.1 = 3
    ∧ ¬ countPauses (fetch (fun _ => none) "ua" (initState ({ maxRetries := 3 }) 0) "u").2.1 = 2 := by
  refine ⟨rfl, rfl, ?_⟩
  intro h
  simp [fetch, ensure_session, initState, newSession, fetchLoop, countPauses,
    List.countP_cons, isPause] at h

/-- Claim C2 as amended: for every URL whose attempts all fail and
`maxRetries >= 1`, `fetch` returns an absent result after exactly
`maxRetries` requests, with a fixed 1-second pause after every failed
attempt — including the last — so `maxRetries` attempts produce `maxRetries`
pauses (not `maxRetries - 1`). -/
theorem C2_amended_fetch_allfail (net1 : Nat → Option String) (ua url : String)
    (s : FetcherState) (hf : ∀ a, net1 a = none) (hr : 1 ≤ s.maxRetries) :
    (fetch net1 ua s url).2.2 = none
    ∧ countRequests (fetch net1 ua s url).2.1 = s.maxRetries
    ∧ countPauses (fetch net1 ua s url).2.1 = s.maxRetries := by
  have hm := (ensure_session_frame ua s).2.2
  simp only [fetch, hm, fetchLoop_allfail net1 url hf]
  exact ⟨trivial, countRequests_failTrace url s.maxRetries, countPauses_failTrace url s.maxRetries⟩

/-- Witness for the amended claim C2 at `maxRetries = 3`. -/
theorem C2_amended_witness :
    (fetch (fun _ => none) "ua" (initState ({ maxRetries := 3 }) 0) "u").2.2 = none
    ∧ countRequests (fetch (fun _ => none) "ua" (initState ({ maxRetries := 3 }) 0) "u").2.1 = 3
    ∧ countPauses (fetch (fun _ => none) "ua" (initState ({ maxRetries := 3 }) 0) "u").2.1 = 3 :=
  C2_amended_fetch_allfail (fun _ => none) "ua" "u" (initState ({ maxRetries := 3 }) 0)
    (fun _ => rfl) (by decide)

/-- Claim C3, counterexample: on the empty input list `fetch_all` does not
return the empty result sequence — it errs, raising `UnboundLocalError` at
fetcher.py:117 (and even the intended first-element fetch `urls[0]` would
raise `IndexError` on `[]`, as the spec itself flags in its open question). -/
theorem C3_counterexample_empty_input :
    (fetch_all (fun _ _ => some "body") "ua" (initState {} 0) []).2.2
      = Except.error (PyErr.unboundLocal "url")
    ∧ ¬ (fetch_all (fun _ _ => some "body") "ua" (initState {} 0) []).2.2
      = Except.ok [] :=
  ⟨rfl, fun h => Except.noConfusion h⟩

/-- Claim C3 as amended: on an empty input list `fetch_all` performs no
request and no sleep, and errs (with `UnboundLocalError`) rather than
returning an empty result sequence. -/
theorem C3_amended_empty_input_errors (net : Nat → Nat → Option String) (ua : String)
    (s : FetcherState) :
    fetch_all net ua s []
      = (ensure_session ua s, [], Except.error (PyErr.unboundLocal "url")) :=
  rfl

/-- Claim C6: when `maxRetries = 0` the guard `attempt < self._max_retries`
of fetcher.py:93 fails at once, so `fetch` issues no request, performs no
sleep and immediately returns the absent result. -/
theorem C6_zero_retries_no_request (net1 : Nat → Option String) (ua url : String)
    (s : FetcherState) (h : s.maxRetries = 0) :
    fetch net1 ua s url = (ensure_session ua s, [], none) := by
  have hm := (ensure_session_frame ua s).2.2
  simp only [fetch, hm, h]
  rfl

/-- Witness for claim C6 at the concrete configuration `maxRetries = 0`. -/
theorem C6_witness :
    fetch (fun _ => some "body") "ua" (initState ({ maxRetries := 0 }) 0) "u"
      = (ensure_session "ua" (initState ({ maxRetries := 0 }) 0), [], none) :=
  C6_zero_retries_no_request (fun _ => some "body") "ua" "u"
    (initState ({ maxRetries := 0 }) 0) rfl

/-- Claim C8: if the first attempt succeeds (and `maxRetries >= 1`), `fetch`
issues exactly one request and immediately returns the UTF-8-decoded body —
the event trace is the single request, with no pause and no further
attempt. -/
theorem C8_first_attempt_success (net1 : Nat → Option String) (ua url : String)
    (s : FetcherState) (b : String) (h0 : net1 0 = some b) (h1 : 1 ≤ s.maxRetries) :
    fetch net1 ua s url = (ensure_session ua s, [Ev.request url], some b) := by
  have hm := (ensure_session_frame ua s).2.2
  obtain ⟨k, hk⟩ := Nat.exists_eq_add_of_le h1
  rw [Nat.add_comm 1 k] at hk
  simp only [fetch, hm, hk, fetchLoop, h0]

/-- Witness for claim C8: a first-attempt success under the default
configuration (`maxRetries = 2`). -/
theorem C8_witness :
    fetch (fun _ => some "body") "ua" (initState {} 0) "u"
      = (ensure_session "ua" (initState {} 0), [Ev.request "u"], some "body") :=
  C8_first_attempt_success (fun _ => some "body") "ua" "u" (initState {} 0) "body"
    rfl (by decide)

/-- Claim C9: `close` is idempotent — `close` after `close` changes nothing
more, `close` on a fetcher whose session was never created (session unset)
is a no-op, and `close` on a fetcher whose session is already closed is a
no-op. -/
theorem C9_close_idempotent (s : FetcherState) (sess : Session) :
    close (close s) = close s
    ∧ close ({ s with session := none }) = { s with session := none }
    ∧ close ({ s with session := some ({ sess with closed := true }) })
      = { s with session := some ({ sess with closed := true }) } := by
  refine ⟨?_, rfl, rfl⟩
  rcases s with ⟨t, c, se, mr, mi, ma, ct⟩
  rcases se with _ | sess0
  · rfl
  · rcases sess0 with ⟨sc, st, su, scl⟩
    cases scl
    · rfl
    · rfl

/-- Claim C10: the connector is fixed at construction — `_ensure_session`,
`close` and `fetch` never change it; every session `_ensure_session`
establishes (also one established right after a `close`) is bound to that
same connector; and `close` changes nothing of the fetcher besides the
session field. -/
theorem C10_connector_created_once (net1 : Nat → Option String) (ua url : String)
    (s : FetcherState) (h : connectorBound s) :
    (ensure_session ua s).connector = s.connector
    ∧ (close s).connector = s.connector
    ∧ (fetch net1 ua s url).1.connector = s.connector
    ∧ (ensure_session ua s).session.map Session.connector = some s.connector
    ∧ (ensure_session ua (close s)).session.map Session.connector = some s.connector
    ∧ close s = { s with session := (close s).session } := by
  rcases s with ⟨t, c, se, mr, mi, ma, ct⟩
  rcases se with _ | sess0
  · exact ⟨rfl, rfl, rfl, rfl, rfl, rfl⟩
  · rcases sess0 with ⟨sc, st, su, scl⟩
    simp [connectorBound, Option.all] at h
    cases scl
    · subst h
      exact ⟨rfl, rfl, rfl, rfl, rfl, rfl⟩
    · subst h
      exact ⟨rfl, rfl, rfl, rfl, rfl, rfl⟩

/-- Witness for claim C10 on a freshly constructed fetcher with connector
identity 7, after its first session has been established. -/
theorem C10_witness :
    (ensure_session "ua2" (ensure_session "ua" (initState {} 7))).connector
      = (ensure_session "ua" (initState {} 7)).connector
    ∧ (close (ensure_session "ua" (initState {} 7))).connector
      = (ensure_session "ua" (initState {} 7)).connector
    ∧ (fetch (fun _ => none) "ua2" (ensure_session "ua" (initState {} 7)) "u").1.connector
      = (ensure_session "ua" (initState {} 7)).connector
    ∧ (ensure_session "ua2" (ensure_session "ua" (initState {} 7))).session.map Session.connector
      = some (ensure_session "ua" (initState {} 7)).connector
    ∧ (ensure_session "ua2" (close (ensure_session "ua" (initState {} 7)))).session.map
        Session.connector = some (ensure_session "ua" (initState {} 7)).connector
    ∧ close (ensure_session "ua" (initState {} 7))
      = { ensure_session "ua" (initState {} 7) with
            session := (close (ensure_session "ua" (initState {} 7))).session } :=
  C10_connector_created_once (fun _ => none) "ua2" "u"
    (ensure_session "ua" (initState {} 7)) rfl

/-! Invariants of the concurrent multi-fetch scheduler. -/

theorem cstep_sem (maxR : Nat) (net : Nat → Nat → Option String) (N : Nat)
    (s t : CState) (hstep : CStep maxR net s t)
    (hinv : s.sem + holdersCount s.tasks = N) :
    t.sem + holdersCount t.tasks = N := by
  cases hstep with
  | acquire i k ts h =>
    have hc := countP_set_add holds ts i TPhase.sleeping TPhase.waitSem h
    simp [holds] at hc
    simp only [holdersCount] at hinv ⊢
    omega
  | wake i k ts h =>
    have hc := countP_set_add holds ts i (TPhase.check 0) TPhase.sleeping h
    simp [holds] at hc
    simp only [holdersCount] at hinv ⊢
    omega
  | checkT i k ts a h ha =>
    have hc := countP_set_add holds ts i (TPhase.request a) (TPhase.check a) h
    simp [holds] at hc
    simp only [holdersCount] at hinv ⊢
    omega
  | checkF i k ts a h ha =>
    have hc := countP_set_add holds ts i (TPhase.done none) (TPhase.check a) h
    simp [holds] at hc
    simp only [holdersCount] at hinv ⊢
    omega
  | reqOk i k ts a b h hb =>
    have hc := countP_set_add holds ts i (TPhase.done (some b)) (TPhase.request a) h
    simp [holds] at hc
    simp only [holdersCount] at hinv ⊢
    omega
  | reqErr i k ts a h hb =>
    have hc := countP_set_add holds ts i (TPhase.pause (a+1)) (TPhase.request a) h
    simp [holds] at hc
    simp only [holdersCount] at hinv ⊢
    omega
  | endPause i k ts a h =>
    have hc := countP_set_add holds ts i (TPhase.check a) (TPhase.pause a) h
    simp [holds] at hc
    simp only [holdersCount] at hinv ⊢
    omega

theorem creach_sem (maxR : Nat) (net : Nat → Nat → Option String) (N n : Nat)
    (s : CState) (h : CReach maxR net (cinit N n) s) :
    s.sem + holdersCount s.tasks = N := by
  induction h with
  | refl =>
    simp only [cinit, holdersCount]
    rw [countP_replicate_zero holds TPhase.waitSem rfl n]
    omega
  | tail hsteps hstep ih => exact cstep_sem maxR net N _ _ hstep ih

theorem cstep_len (maxR : Nat) (net : Nat → Nat → Option String)
    (s t : CState) (hstep : CStep maxR net s t) :
    t.tasks.length = s.tasks.length := by
  cases hstep <;> simp [List.length_set]

theorem creach_len (maxR : Nat) (net : Nat → Nat → Option String) (N n : Nat)
    (s : CState) (h : CReach maxR net (cinit N n) s) :
    s.tasks.length = n := by
  induction h with
  | refl => simp [cinit]
  | tail hsteps hstep ih => rw [cstep_len _ _ _ _ hstep, ih]

theorem cstep_taskOK (maxR : Nat) (net : Nat → Nat → Option String)
    (s t : CState) (hstep : CStep maxR net s t)
    (hinv : ∀ i ph, s.tasks.get? i = some ph → taskOK (net i) maxR ph) :
    ∀ j ph, t.tasks.get? j = some ph → taskOK (net j) maxR ph := by
  cases hstep with
  | acquire i k ts h =>
    intro j ph hj
    by_cases hij : i = j
    · subst hij
      rw [List.get?_set_eq_of_lt _ (lt_length_of_get? h)] at hj
      cases hj
      trivial
    · rw [List.get?_set_ne _ _ hij] at hj
      exact hinv j ph hj
  | wake i k ts h =>
    intro j ph hj
    by_cases hij : i = j
    · subst hij
      rw [List.get?_set_eq_of_lt _ (lt_length_of_get? h)] at hj
      cases hj
      simp [taskOK, fetchOutcome]
    · rw [List.get?_set_ne _ _ hij] at hj
      exact hinv j ph hj
  | checkT i k ts a h ha =>
    intro j ph hj
    by_cases hij : i = j
    · subst hij
      rw [List.get?_set_eq_of_lt _ (lt_length_of_get? h)] at hj
      cases hj
      exact ⟨ha, hinv i (TPhase.check a) h⟩
    · rw [List.get?_set_ne _ _ hij] at hj
      exact hinv j ph hj
  | checkF i k ts a h ha =>
    intro j ph hj
    by_cases hij : i = j
    · subst hij
      rw [List.get?_set_eq_of_lt _ (lt_length_of_get? h)] at hj
      cases hj
      have hOK := hinv i (TPhase.check a) h
      simp only [taskOK] at hOK ⊢
      have hz : maxR - a = 0 := by omega
      rw [hz] at hOK
      exact hOK
    · rw [List.get?_set_ne _ _ hij] at hj
      exact hinv j ph hj
  | reqOk i k ts a b h hb =>
    intro j ph hj
    by_cases hij : i = j
    · subst hij
      rw [List.get?_set_eq_of_lt _ (lt_length_of_get? h)] at hj
      cases hj
      obtain ⟨ha, hOK⟩ := hinv i (TPhase.request a) h
      simp only [taskOK] at hOK ⊢
      have hs : maxR - a = (maxR - (a+1)) + 1 := by omega
      rw [hs] at hOK
      simp only [loopFuel, hb] at hOK
      exact hOK
    · rw [List.get?_set_ne _ _ hij] at hj
      exact hinv j ph hj
  | reqErr i k ts a h hb =>
    intro j ph hj
    by_cases hij : i = j
    · subst hij
      rw [List.get?_set_eq_of_lt _ (lt_length_of_get? h)] at hj
      cases hj
      obtain ⟨ha, hOK⟩ := hinv i (TPhase.request a) h
      simp only [taskOK] at hOK ⊢
      have hs : maxR - a = (maxR - (a+1)) + 1 := by omega
      rw [hs] at hOK
      simp only [loopFuel, hb] at hOK
      exact hOK
    · rw [List.get?_set_ne _ _ hij] at hj
      exact hinv j ph hj
  | endPause i k ts a h =>
    intro j ph hj
    by_cases hij : i = j
    · subst hij
      rw [List.get?_set_eq_of_lt _ (lt_length_of_get? h)] at hj
      cases hj
      exact hinv i (TPhase.pause a) h
    · rw [List.get?_set_ne _ _ hij] at hj
      exact hinv j ph hj

theorem creach_taskOK (maxR : Nat) (net : Nat → Nat → Option String) (N n : Nat)
    (s : CState) (h : CReach maxR net (cinit N n) s) :
    ∀ i ph, s.tasks.get? i = some ph → taskOK (net i) maxR ph := by
  induction h with
  | refl =>
    intro i ph hp
    have := eq_of_get?_replicate TPhase.waitSem n i ph hp
    subst this
    trivial
  | tail hsteps hstep ih => exact cstep_taskOK maxR net _ _ hstep ih

theorem gather_spec (ts : List TPhase) (rs : List (Option String))
    (h : gatherResults ts = some rs) :
    rs.length = ts.length
    ∧ ∀ i r, rs.get? i = some r → ts.get? i = some (TPhase.done r) := by
  induction ts generalizing rs with
  | nil =>
    simp only [gatherResults, Option.some.injEq] at h
    subst h
    exact ⟨rfl, fun i r hr => by simp at hr⟩
  | cons hd tl ih =>
    cases hd with
    | done r0 =>
      rcases hmap : gatherResults tl with _ | rs0
      · rw [gatherResults, hmap] at h
        simp at h
      · rw [gatherResults, hmap] at h
        simp at h
        subst h
        obtain ⟨hlen, hget⟩ := ih rs0 hmap
        refine ⟨by simp [hlen], ?_⟩
        intro i r hr
        cases i with
        | zero =>
          simp only [List.get?, Option.some.injEq] at hr ⊢
          rw [hr]
        | succ i => exact hget i r hr
    | waitSem => simp [gatherResults] at h
    | sleeping => simp [gatherResults] at h
    | check a => simp [gatherResults] at h
    | request a => simp [gatherResults] at h
    | pause a => simp [gatherResults] at h

theorem get?_map_range {α : Type} (f : Nat → α) (n j : Nat) :
    ((List.range n).map f).get? j = if j < n then some (f j) else none := by
  by_cases hj : j < n
  · rw [if_pos hj, List.get?_map, List.get?_range hj]
    rfl
  · rw [if_neg hj, List.get?_eq_none.mpr]
    simp only [List.length_map, List.length_range]
    omega

theorem run_gather (maxR : Nat) (net : Nat → Nat → Option String) (N n : Nat)
    (s : CState) (rs : List (Option String))
    (h : CReach maxR net (cinit N n) s) (hg : gatherResults s.tasks = some rs) :
    rs = (List.range n).map (fun i => fetchOutcome (net i) maxR) := by
  have hlen := creach_len maxR net N n s h
  have hOK := creach_taskOK maxR net N n s h
  obtain ⟨hrl, hget⟩ := gather_spec s.tasks rs hg
  apply List.ext
  intro j
  by_cases hj : j < n
  · obtain ⟨r, hr⟩ : ∃ r, rs.get? j = some r := by
      rcases hrs : rs.get? j with _ | r
      · rw [List.get?_eq_none] at hrs
        omega
      · exact ⟨r, rfl⟩
    have hts := hget j r hr
    have hdone := hOK j (TPhase.done r) hts
    simp only [taskOK] at hdone
    rw [hr, get?_map_range, if_pos hj, hdone]
  · rw [List.get?_eq_none.mpr (by omega), get?_map_range, if_neg hj]

/-- Claim C4: whatever the scheduling (hence completion) order of the task
units spawned by `fetch_all_concurrent`, once `asyncio.gather` can collect
(all tasks done) the returned sequence has one element per input URL, in
input order: its `i`-th element is exactly the fetch outcome of the `i`-th
URL. -/
theorem C4_concurrent_results_in_input_order (maxR : Nat)
    (net : Nat → Nat → Option String) (N n : Nat) (s : CState)
    (rs : List (Option String))
    (h : CReach maxR net (cinit N n) s) (hg : gatherResults s.tasks = some rs) :
    rs = (List.range n).map (fun i => fetchOutcome (net i) maxR) :=
  run_gather maxR net N n s rs h hg

/-- Witness for claim C4: two URLs, gate size 3, `maxRetries = 1`, a schedule
in which the SECOND task completes first; gather still returns the results
in input order `[some "A", some "B"]`. -/
theorem C4_witness :
    [some "A", some "B"] = (List.range 2).map (fun i => fetchOutcome (netAB i) 1) := by
  have hreach : CReach 1 netAB (cinit 3 2)
      ⟨3, [TPhase.done (some "A"), TPhase.done (some "B")]⟩ :=
    Relation.ReflTransGen.refl
      |>.tail (CStep.acquire 0 2 [TPhase.waitSem, TPhase.waitSem] rfl)
      |>.tail (CStep.acquire 1 1 [TPhase.sleeping, TPhase.waitSem] rfl)
      |>.tail (CStep.wake 1 1 [TPhase.sleeping, TPhase.sleeping] rfl)
      |>.tail (CStep.checkT 1 1 [TPhase.sleeping, TPhase.check 0] 0 rfl (by decide))
      |>.tail (CStep.reqOk 1 1 [TPhase.sleeping, TPhase.request 0] 0 "B" rfl rfl)
      |>.tail (CStep.wake 0 2 [TPhase.sleeping, TPhase.done (some "B")] rfl)
      |>.tail (CStep.checkT 0 2 [TPhase.check 0, TPhase.done (some "B")] 0 rfl (by decide))
      |>.tail (CStep.reqOk 0 2 [TPhase.request 0, TPhase.done (some "B")] 0 "A" rfl rfl)
  exact C4_concurrent_results_in_input_order 1 netAB 3 2 _ _ hreach rfl

/-- Claim C5: in every reachable state of a `fetch_all_concurrent` run, at
most `concurrent_tasks` task units hold a semaphore permit (are delaying or
fetching) at once; free permits plus held permits always account exactly for
the gate size; and a task sleeping its random delay does consume a permit
(whenever some task is in the delaying phase, fewer than `concurrent_tasks`
permits are free — the delay pads the time its permit is held). -/
theorem C5_gate_bounds_concurrency (maxR : Nat) (net : Nat → Nat → Option String)
    (N n : Nat) (s : CState) (h : CReach maxR net (cinit N n) s) :
    holdersCount s.tasks ≤ N
    ∧ s.sem + holdersCount s.tasks = N
    ∧ ∀ i, s.tasks.get? i = some TPhase.sleeping → s.sem < N := by
  have hsem := creach_sem maxR net N n s h
  refine ⟨by omega, hsem, ?_⟩
  intro i hi
  have hmem : TPhase.sleeping ∈ s.tasks := List.get?_mem hi
  have hpos : 0 < holdersCount s.tasks :=
    List.countP_pos.mpr ⟨TPhase.sleeping, hmem, rfl⟩
  omega

/-- Witness for claim C5 at gate size 3 with two tasks, at the initial state
of the run. -/
theorem C5_witness : holdersCount (cinit 3 2).tasks ≤ 3 :=
  (C5_gate_bounds_concurrency 1 netAB 3 2 (cinit 3 2) Relation.ReflTransGen.refl).1

/-- Claim C7: a URL whose attempts all fail only degrades its own result
slot to the absent value; the slots of the sibling URLs are exactly what
they are under any oracle that agrees on the siblings — an individual
failure is isolated to its own slot, and no exception leaves the batch (in
the model a failed task steps to `done none`; there is no error outcome). -/
theorem C7_failure_isolated_to_own_slot (maxR N n i : Nat)
    (net netOther : Nat → Nat → Option String) (s sOther : CState)
    (rs rsOther : List (Option String))
    (hagree : ∀ j, ¬ j = i → net j = netOther j)
    (hfail : ∀ a, net i a = none)
    (hi : i < n)
    (h : CReach maxR net (cinit N n) s)
    (hg : gatherResults s.tasks = some rs)
    (hOther : CReach maxR netOther (cinit N n) sOther)
    (hgOther : gatherResults sOther.tasks = some rsOther) :
    rs.get? i = some none ∧ ∀ j, ¬ j = i → rs.get? j = rsOther.get? j := by
  have e1 := run_gather maxR net N n s rs h hg
  have e2 := run_gather maxR netOther N n sOther rsOther hOther hgOther
  subst e1
  subst e2
  constructor
  · rw [get?_map_range, if_pos hi]
    exact congrArg some (loopFuel_allfail (net i) hfail maxR 0)
  · intro j hj
    by_cases hjn : j < n
    · rw [get?_map_range, get?_map_range, if_pos hjn, if_pos hjn]
      show some (fetchOutcome (net j) maxR) = some (fetchOutcome (netOther j) maxR)
      rw [hagree j hj]
    · rw [get?_map_range, get?_map_range, if_neg hjn, if_neg hjn]

/-- Witness for claim C7: two URLs, URL 1 failing every attempt under
`netA`; its slot is the absent value while URL 0 keeps its own result. -/
theorem C7_witness : ([some "A", none] : List (Option String)).get? 1 = some none := by
  have hreach1 : CReach 1 netA (cinit 2 2) ⟨2, [TPhase.done (some "A"), TPhase.done none]⟩ :=
    Relation.ReflTransGen.refl
      |>.tail (CStep.acquire 0 1 [TPhase.waitSem, TPhase.waitSem] rfl)
      |>.tail (CStep.wake 0 1 [TPhase.sleeping, TPhase.waitSem] rfl)
      |>.tail (CStep.checkT 0 1 [TPhase.check 0, TPhase.waitSem] 0 rfl (by decide))
      |>.tail (CStep.reqOk 0 1 [TPhase.request 0, TPhase.waitSem] 0 "A" rfl rfl)
      |>.tail (CStep.acquire 1 1 [TPhase.done (some "A"), TPhase.waitSem] rfl)
      |>.tail (CStep.wake 1 1 [TPhase.done (some "A"), TPhase.sleeping] rfl)
      |>.tail (CStep.checkT 1 1 [TPhase.done (some "A"), TPhase.check 0] 0 rfl (by decide))
      |>.tail (CStep.reqErr 1 1 [TPhase.done (some "A"), TPhase.request 0] 0 rfl rfl)
      |>.tail (CStep.endPause 1 1 [TPhase.done (some "A"), TPhase.pause 1] 1 rfl)
      |>.tail (CStep.checkF 1 1 [TPhase.done (some "A"), TPhase.check 1] 1 rfl (by decide))
  have hreach2 : CReach 1 netA1 (cinit 2 2)
      ⟨2, [TPhase.done (some "A"), TPhase.done (some "B")]⟩ :=
    Relation.ReflTransGen.refl
      |>.tail (CStep.acquire 0 1 [TPhase.waitSem, TPhase.waitSem] rfl)
      |>.tail (CStep.wake 0 1 [TPhase.sleeping, TPhase.waitSem] rfl)
      |>.tail (CStep.checkT 0 1 [TPhase.check 0, TPhase.waitSem] 0 rfl (by decide))
      |>.tail (CStep.reqOk 0 1 [TPhase.request 0, TPhase.waitSem] 0 "A" rfl rfl)
      |>.tail (CStep.acquire 1 1 [TPhase.done (some "A"), TPhase.waitSem] rfl)
      |>.tail (CStep.wake 1 1 [TPhase.done (some "A"), TPhase.sleeping] rfl)
      |>.tail (CStep.checkT 1 1 [TPhase.done (some "A"), TPhase.check 0] 0 rfl (by decide))
      |>.tail (CStep.reqOk 1 1 [TPhase.done (some "A"), TPhase.request 0] 0 "B" rfl rfl)
  have hagree : ∀ j, ¬ j = 1 → netA j = netA1 j := by
    intro j hj
    funext a
    simp [netA1, hj]
  exact (C7_failure_isolated_to_own_slot 1 2 2 1 netA netA1 _ _
    [some "A", none] [some "A", some "B"] hagree (fun _ => rfl) (by decide)
    hreach1 rfl hreach2 rfl).1

end AioFetcher
